import Mathlib

/-
Shallow embedding of the Performance Learning Engine of the
AnalyticsDashboard repository (src/enhanced_hashtag_recommender.py and
src/import_historical_data.py).

Modelling conventions:
* SQLite REAL columns and Python floats are modelled as rationals (the
  engagement-rate formulas and score weights are exact decimals).
* TEXT columns and Python strings are modelled as String, INTEGER columns
  as Int or Nat.  A table is a list of row structures in rowid order.
* The external clock (datetime.now().weekday()) is passed explicitly.
* The text-generation oracle is external; its decoded reply is passed as
  an Option value (none covers: no reply, no JSON array found, decode
  error).
-/

inductive Platform where
  | Twitter
  | Instagram
deriving DecidableEq, Repr

/-- Row of the posts table (columns used by the engine; created_at and
predicted_score do not influence any modelled operation). -/
structure PostRow where
  id : Nat
  platform : Platform
  content : String
  content_length : Nat
  has_question : Bool
  has_emoji : Bool
deriving DecidableEq, Repr

/-- Row of the hashtags table. -/
structure HashtagRow where
  post_id : Nat
  hashtag : String
  predicted_relevance : Int
deriving DecidableEq, Repr

/-- Row of the performance table (post_id is UNIQUE in the schema). -/
structure PerfRow where
  post_id : Nat
  likes : Int
  comments : Int
  shares : Int
  impressions : Int
  engagement_rate : ℚ
deriving DecidableEq, Repr

/-- Row of the hashtag_stats table.  In the schema the PRIMARY KEY is the
hashtag column alone; platform is an ordinary column.  The unused
success_rate column is omitted (never computed or read). -/
structure StatsRow where
  hashtag : String
  platform : Platform
  total_uses : Nat
  avg_engagement : ℚ
deriving DecidableEq, Repr

/-- The SQLite database. -/
structure Store where
  posts : List PostRow
  hashtags : List HashtagRow
  performance : List PerfRow
  hashtag_stats : List StatsRow
deriving DecidableEq, Repr

/-- Python int() applied to a real value: truncation toward zero. -/
def truncQ (q : ℚ) : Int := if 0 ≤ q then ⌊q⌋ else -⌊-q⌋

/-- SQL AVG over the listed values; the caller handles the empty case (where
SQL AVG returns NULL instead). -/
def meanQ (l : List ℚ) : ℚ := l.sum / l.length

/-- One `INSERT INTO hashtag_stats ... ON CONFLICT(hashtag) DO UPDATE`
statement, as issued by PerformanceDatabase.update_actual_performance and by
DataImporter._import_row.  The conflict target is the hashtag column alone
(its PRIMARY KEY), so a row is matched regardless of platform, and the DO
UPDATE clause does not assign the platform column.  SQL UPDATE semantics:
every column reference in a SET expression reads the value the row had
BEFORE the update, so the total_uses occurrences inside the avg_engagement
expression denote the old use count even though the list of assignments
increments total_uses first. -/
def upsertHashtagStat (stats : List StatsRow) (tag : String) (pf : Platform)
    (rate : ℚ) : List StatsRow :=
  match stats with
  | [] => [⟨tag, pf, 1, rate⟩]
  | r :: rs =>
    if r.hashtag = tag then
      { r with
          total_uses := r.total_uses + 1,
          avg_engagement :=
            (r.avg_engagement * ((r.total_uses : ℚ) - 1) + rate) /
              (r.total_uses : ℚ) } :: rs
    else r :: upsertHashtagStat rs tag pf rate

/-- PerformanceDatabase.update_actual_performance.  Computes the engagement
rate (0 when impressions is not positive), INSERT OR REPLACEs the outcome
row (the UNIQUE post_id conflict deletes the old row and appends the fresh
one), then upserts the aggregate of every hashtag assigned to the post.
When the post id does not exist the source crashes on fetchone()[0] before
conn.commit(), so the transaction is rolled back: modelled as none. -/
def update_actual_performance (db : Store) (post_id : Nat)
    (likes comments shares impressions : Int) : Option Store :=
  let engagement_rate : ℚ :=
    if 0 < impressions then
      ((likes : ℚ) + (comments : ℚ) + (shares : ℚ)) / (impressions : ℚ) * 100
    else 0
  match db.posts.find? (fun p => p.id == post_id) with
  | none => none
  | some post =>
    let newPerf : List PerfRow :=
      db.performance.filter (fun r => !(r.post_id == post_id)) ++
        [⟨post_id, likes, comments, shares, impressions, engagement_rate⟩]
    let tags : List String :=
      (db.hashtags.filter (fun h => h.post_id == post_id)).map (fun h => h.hashtag)
    let newStats : List StatsRow :=
      tags.foldl (fun s t => upsertHashtagStat s t post.platform engagement_rate)
        db.hashtag_stats
    some { db with performance := newPerf, hashtag_stats := newStats }

/-- The Save Performance Data handler of the tracking tab: the caller-side
guard around update_actual_performance.  A non-positive impressions value is
rejected with an on-screen error and the store method is never invoked. -/
def report_outcome_guarded (db : Store) (post_id : Nat)
    (likes comments shares impressions : Int) : Except String Store :=
  if 0 < impressions then
    match update_actual_performance db post_id likes comments shares impressions with
    | some db1 => Except.ok db1
    | none => Except.error "post not found"
  else Except.error "Please enter impressions greater than 0"

/- ------------------------------------------------------------------ -/
/- The scorer                                                          -/
/- ------------------------------------------------------------------ -/

/-- The learning-insights record assembled by get_learning_insights.
best_hashtag pairs the tag with its average engagement. -/
structure Insights where
  total_posts : Nat
  tracked_posts : Nat
  avg_engagement : ℚ
  best_hashtag : Option (String × ℚ)
  optimal_length : Option Int
deriving DecidableEq, Repr

/-- A proposed hashtag record (tag, relevance, popularity, reason). -/
structure HashtagItem where
  tag : String
  relevance : Int
  popularity : String
  reason : String
deriving DecidableEq, Repr

/-- The fixed emoji set the source iterates over.  Iterating the Python
string literal yields these ten code points; the red-heart emoji consists of
U+2764 followed by the variation selector U+FE0F, so the selector is probed
as a character of its own. -/
def emojiSet : List Char :=
  ['😊', '🔥', '💯', '❤', Char.ofNat 0xFE0F, '👍', '🎉', '✨', '💪', '🙌']

/-- Python substring containment on the character-list model of strings. -/
def containsSeq (hay needle : List Char) : Bool :=
  match hay with
  | [] => needle.isEmpty
  | _ :: t => needle.isPrefixOf hay || containsSeq t needle

/-- The data-provenance marker that step 4 of the proposer appends to the
reason of a historically tracked tag; the strategy scorer detects a
data-backed tag by this substring. -/
def dataMarker : List Char := "[✓ Data:".data

/-- Python truthiness of insights.get(optimal_length): a missing key and a
stored zero are both falsy. -/
def optimalLengthKnown (i : Insights) : Bool :=
  match i.optimal_length with
  | none => false
  | some n => n != 0

/-- EnhancedHashtagAnalyzer._score_content_quality_learned.  The source
evaluates text[0].isupper() unconditionally, so the empty string raises
IndexError: modelled as none.  Character classes (isupper, the alphabetic
tests elsewhere) are modelled over ASCII. -/
def score_content_quality_learned (text : String) (pf : Platform)
    (insights : Insights) : Option Int :=
  match text.data with
  | [] => none
  | c0 :: _ =>
    let text_length : Int := (text.length : Int)
    let score0 : Int := 50
    let score1 : Int :=
      if optimalLengthKnown insights then
        let optimal := insights.optimal_length.getD 0
        let length_diff := |text_length - optimal|
        if length_diff < 50 then score0 + 25
        else if length_diff < 100 then score0 + 15
        else score0 + 5
      else
        if pf = Platform.Twitter ∧ 100 ≤ text_length ∧ text_length ≤ 280 then
          score0 + 20
        else if pf = Platform.Instagram ∧ 138 ≤ text_length ∧ text_length ≤ 2200 then
          score0 + 20
        else score0
    let score2 := if text.data.contains '?' then score1 + 10 else score1
    let score3 :=
      if emojiSet.any (fun e => text.data.contains e) then score2 + 10 else score2
    let score4 := if c0.isUpper then score3 + 5 else score3
    some (min 100 (max 0 score4))

/-- EnhancedHashtagAnalyzer._score_hashtag_strategy.  The relevance term is
int((avg_relevance - 50) / 2): truncation toward zero. -/
def score_hashtag_strategy (hashtags : List HashtagItem) (pf : Platform) : Int :=
  if hashtags.isEmpty then 0
  else
    let count := hashtags.length
    let score0 : Int := 50
    let score1 : Int :=
      match pf with
      | Platform.Twitter =>
        if 1 ≤ count ∧ count ≤ 3 then score0 + 25 else score0 - 15
      | Platform.Instagram =>
        if 8 ≤ count ∧ count ≤ 15 then score0 + 25
        else if 5 ≤ count ∧ count < 8 then score0 + 15
        else score0
    let avg_relevance : ℚ :=
      ((hashtags.map (fun h => (h.relevance : ℚ))).sum) / (count : ℚ)
    let score2 := score1 + truncQ ((avg_relevance - 50) / 2)
    let data_backed : Int :=
      ((hashtags.filter (fun h => containsSeq h.reason.data dataMarker)).length : Int)
    let score3 := score2 + min 15 (data_backed * 5)
    min 100 (max 0 score3)

/-- The fixed timeliness keyword list of _score_timing. -/
def timelyKeywords : List String := ["new", "now", "today", "breaking", "update", "trending"]

/-- Python str.lower() on the character-list model (ASCII case mapping). -/
def pyLower (s : String) : List Char := s.data.map Char.toLower

/-- EnhancedHashtagAnalyzer._score_timing.  The current weekday
(Monday = 0) is an input of the embedding. -/
def score_timing (text : String) (weekday : Nat) : Int :=
  let score0 : Int := 60
  let lower := pyLower text
  let score1 :=
    if timelyKeywords.any (fun k => containsSeq lower k.data) then score0 + 20
    else score0
  let score2 := if weekday = 1 ∨ weekday = 2 ∨ weekday = 3 then score1 + 10 else score1
  min 100 score2

/-- EnhancedHashtagAnalyzer._calculate_data_confidence. -/
def calculate_data_confidence (insights : Insights) : Int :=
  if insights.tracked_posts = 0 then 30
  else if insights.tracked_posts < 10 then 50
  else if insights.tracked_posts < 50 then 75
  else 95

/-- The five scores returned by _score_with_learning. -/
structure Scores where
  content_quality : Int
  hashtag_strategy : Int
  timing_relevance : Int
  data_confidence : Int
  engagement_potential : Int
deriving DecidableEq, Repr

/-- EnhancedHashtagAnalyzer._score_with_learning.  The engagement potential
is int() applied to the weighted sum: truncation, modelled over the exact
rational weights. -/
def score_with_learning (text : String) (hashtags : List HashtagItem)
    (pf : Platform) (insights : Insights) (weekday : Nat) : Option Scores :=
  match score_content_quality_learned text pf insights with
  | none => none
  | some cq =>
    let hs := score_hashtag_strategy hashtags pf
    let tr := score_timing text weekday
    let dc := calculate_data_confidence insights
    let ep := truncQ ((cq : ℚ) * (35 / 100) + (hs : ℚ) * (35 / 100) +
                      (tr : ℚ) * (20 / 100) + (dc : ℚ) * (10 / 100))
    some ⟨cq, hs, tr, dc, ep⟩

/- ------------------------------------------------------------------ -/
/- Specification-side scoring formulas (for refinement claims)         -/
/- ------------------------------------------------------------------ -/

/-- Hashtag-strategy score exactly as claim C5 words it: clamp to 0..100 of
base 50, plus the count-band adjustment, plus the mathematical floor of
(meanRelevance-50)/2, plus the data-backed bonus; 0 on the empty list. -/
def hashtag_strategy_per_claim (hashtags : List HashtagItem) (pf : Platform) : Int :=
  if hashtags.isEmpty then 0
  else
    let count := hashtags.length
    let band : Int :=
      (if (pf = Platform.Twitter ∧ 1 ≤ count ∧ count ≤ 3) ∨
          (pf = Platform.Instagram ∧ 8 ≤ count ∧ count ≤ 15) then 25 else 0) +
      (if pf = Platform.Instagram ∧ 5 ≤ count ∧ count ≤ 7 then 15 else 0) +
      (if pf = Platform.Twitter ∧ ¬(1 ≤ count ∧ count ≤ 3) then -15 else 0)
    let meanRelevance : ℚ :=
      ((hashtags.map (fun h => (h.relevance : ℚ))).sum) / (count : ℚ)
    let dataBacked : Int :=
      ((hashtags.filter (fun h => containsSeq h.reason.data dataMarker)).length : Int)
    min 100 (max 0 (50 + band + ⌊(meanRelevance - 50) / 2⌋ + min 15 (dataBacked * 5)))

/-- The same formula with the floor replaced by truncation toward zero: the
relevance term of the amended claim C5. -/
def hashtag_strategy_amended (hashtags : List HashtagItem) (pf : Platform) : Int :=
  if hashtags.isEmpty then 0
  else
    let count := hashtags.length
    let band : Int :=
      (if (pf = Platform.Twitter ∧ 1 ≤ count ∧ count ≤ 3) ∨
          (pf = Platform.Instagram ∧ 8 ≤ count ∧ count ≤ 15) then 25 else 0) +
      (if pf = Platform.Instagram ∧ 5 ≤ count ∧ count ≤ 7 then 15 else 0) +
      (if pf = Platform.Twitter ∧ ¬(1 ≤ count ∧ count ≤ 3) then -15 else 0)
    let meanRelevance : ℚ :=
      ((hashtags.map (fun h => (h.relevance : ℚ))).sum) / (count : ℚ)
    let dataBacked : Int :=
      ((hashtags.filter (fun h => containsSeq h.reason.data dataMarker)).length : Int)
    min 100 (max 0 (50 + band + truncQ ((meanRelevance - 50) / 2) + min 15 (dataBacked * 5)))

/-- Content-quality score as claim C6 words it: base 50 plus independent
additive contributions, clamped to 0..100 (stated for non-empty text; the
head default is never reached there). -/
def content_quality_per_claim (text : String) (pf : Platform)
    (insights : Insights) : Int :=
  let n : Int := (text.length : Int)
  let lengthPart : Int :=
    if optimalLengthKnown insights then
      let dev := |n - insights.optimal_length.getD 0|
      if dev < 50 then 25 else if dev < 100 then 15 else 5
    else
      if (pf = Platform.Twitter ∧ 100 ≤ n ∧ n ≤ 280) ∨
         (pf = Platform.Instagram ∧ 138 ≤ n ∧ n ≤ 2200) then 20 else 0
  let questionPart : Int := if text.data.contains '?' then 10 else 0
  let emojiPart : Int :=
    if emojiSet.any (fun e => text.data.contains e) then 10 else 0
  let upperPart : Int := if (text.data.headD ' ').isUpper then 5 else 0
  min 100 (max 0 (50 + lengthPart + questionPart + emojiPart + upperPart))

/- ------------------------------------------------------------------ -/
/- Helper lemmas about the scorer                                      -/
/- ------------------------------------------------------------------ -/

theorem truncQ_of_nonneg (q : ℚ) (h : 0 ≤ q) : truncQ q = ⌊q⌋ := if_pos h

theorem score_content_quality_learned_bounds (text : String) (pf : Platform)
    (insights : Insights) (s : Int)
    (h : score_content_quality_learned text pf insights = some s) :
    0 ≤ s ∧ s ≤ 100 := by
  cases hd : text.data with
  | nil =>
    simp only [score_content_quality_learned, hd] at h
    exact Option.noConfusion h
  | cons c cs =>
    simp only [score_content_quality_learned, hd, Option.some.injEq] at h
    subst h
    exact ⟨le_min (by norm_num) (le_max_left 0 _), min_le_left _ _⟩

theorem score_hashtag_strategy_nonneg (hashtags : List HashtagItem)
    (pf : Platform) : 0 ≤ score_hashtag_strategy hashtags pf := by
  rw [score_hashtag_strategy]
  split
  · exact le_refl 0
  · exact le_min (by norm_num) (le_max_left 0 _)

theorem score_timing_nonneg (text : String) (weekday : Nat) :
    0 ≤ score_timing text weekday := by
  rw [score_timing]
  split_ifs <;> norm_num

theorem calculate_data_confidence_nonneg (insights : Insights) :
    0 ≤ calculate_data_confidence insights := by
  rw [calculate_data_confidence]
  split_ifs <;> norm_num

/-- Learning insights of a platform with no history at all. -/
def noHistory : Insights := ⟨0, 0, 0, none, none⟩

/-- Three proposed tags of relevance 95 each, none data-backed. -/
def threeNinetyFives : List HashtagItem :=
  [⟨"launch", 95, "High", "a"⟩, ⟨"product", 95, "Medium", "b"⟩,
   ⟨"tech", 95, "Medium", "c"⟩]

theorem score_with_learning_hello_eval :
    score_with_learning "Hello world?" threeNinetyFives Platform.Twitter noHistory 0 =
      some ⟨65, 97, 60, 30, 71⟩ := by
  have h1 : score_content_quality_learned "Hello world?" Platform.Twitter noHistory =
      some 65 := rfl
  have h2 : score_hashtag_strategy threeNinetyFives Platform.Twitter = 97 := by
    have hfil : (threeNinetyFives.filter
        (fun h => containsSeq h.reason.data dataMarker)).length = 0 := rfl
    have hmap : (threeNinetyFives.map (fun h => (h.relevance : ℚ))).sum = 285 := by
      norm_num [threeNinetyFives]
    have hlen : threeNinetyFives.length = 3 := rfl
    have hemp : threeNinetyFives.isEmpty = false := rfl
    simp only [score_hashtag_strategy, hemp, hlen, hfil, hmap]
    norm_num [truncQ]
  have h3 : score_timing "Hello world?" 0 = 60 := rfl
  have h4 : calculate_data_confidence noHistory = 30 := rfl
  simp only [score_with_learning, h1, h2, h3, h4]
  norm_num [truncQ]

/- ------------------------------------------------------------------ -/
/- Claims C4, C5, C6, C10                                              -/
/- ------------------------------------------------------------------ -/

/-- Claim C4 counterexample: at this concrete input the sub-scores are
(65, 97, 60, 30) and the weighted sum is 71.7; the code truncates it to 71
while rounding to the nearest integer gives 72. -/
theorem c4_counterexample_int_truncates :
    score_with_learning "Hello world?" threeNinetyFives Platform.Twitter noHistory 0 =
      some ⟨65, 97, 60, 30, 71⟩ ∧
    round ((65 : ℚ) * (35 / 100) + (97 : ℚ) * (35 / 100) +
           (60 : ℚ) * (20 / 100) + (30 : ℚ) * (10 / 100)) = 72 ∧
    (71 : Int) ≠ 72 :=
  ⟨score_with_learning_hello_eval, by norm_num [round_eq], by norm_num⟩

/-- Claim C4 (amended): the composite engagement potential is the weighted
sum 0.35*contentQuality + 0.35*hashtagStrategy + 0.20*timingRelevance +
0.10*dataConfidence truncated toward zero, equivalently its floor (the
sub-scores are non-negative), not rounded to the nearest integer. -/
theorem c4_amended_weighted_sum_truncated (text : String)
    (hashtags : List HashtagItem) (pf : Platform) (insights : Insights)
    (weekday : Nat) (s : Scores)
    (h : score_with_learning text hashtags pf insights weekday = some s) :
    s.engagement_potential =
      ⌊(s.content_quality : ℚ) * (35 / 100) + (s.hashtag_strategy : ℚ) * (35 / 100) +
        (s.timing_relevance : ℚ) * (20 / 100) + (s.data_confidence : ℚ) * (10 / 100)⌋ := by
  rw [score_with_learning] at h
  cases hcq : score_content_quality_learned text pf insights with
  | none => rw [hcq] at h; cases h
  | some cq =>
    rw [hcq] at h
    injection h with h1
    subst h1
    have h0cq : (0 : ℚ) ≤ (cq : ℚ) := by
      exact_mod_cast (score_content_quality_learned_bounds text pf insights cq hcq).1
    have h0hs : (0 : ℚ) ≤ ((score_hashtag_strategy hashtags pf : Int) : ℚ) := by
      exact_mod_cast score_hashtag_strategy_nonneg hashtags pf
    have h0tr : (0 : ℚ) ≤ ((score_timing text weekday : Int) : ℚ) := by
      exact_mod_cast score_timing_nonneg text weekday
    have h0dc : (0 : ℚ) ≤ ((calculate_data_confidence insights : Int) : ℚ) := by
      exact_mod_cast calculate_data_confidence_nonneg insights
    refine truncQ_of_nonneg _ ?_
    have w1 : (0 : ℚ) ≤ (35 : ℚ) / 100 := by norm_num
    have w2 : (0 : ℚ) ≤ (20 : ℚ) / 100 := by norm_num
    have w3 : (0 : ℚ) ≤ (10 : ℚ) / 100 := by norm_num
    exact add_nonneg (add_nonneg (add_nonneg (mul_nonneg h0cq w1)
      (mul_nonneg h0hs w1)) (mul_nonneg h0tr w2)) (mul_nonneg h0dc w3)

/-- Witness for the amended claim C4 at a concrete input. -/
theorem c4_amended_witness :
    (score_with_learning "Hello world?" threeNinetyFives Platform.Twitter noHistory 0 =
      some ⟨65, 97, 60, 30, 71⟩) ∧
    ((⟨65, 97, 60, 30, 71⟩ : Scores).engagement_potential =
      ⌊((⟨65, 97, 60, 30, 71⟩ : Scores).content_quality : ℚ) * (35 / 100) +
        ((⟨65, 97, 60, 30, 71⟩ : Scores).hashtag_strategy : ℚ) * (35 / 100) +
        ((⟨65, 97, 60, 30, 71⟩ : Scores).timing_relevance : ℚ) * (20 / 100) +
        ((⟨65, 97, 60, 30, 71⟩ : Scores).data_confidence : ℚ) * (10 / 100)⌋) :=
  ⟨score_with_learning_hello_eval,
   c4_amended_weighted_sum_truncated "Hello world?" threeNinetyFives Platform.Twitter
     noHistory 0 ⟨65, 97, 60, 30, 71⟩ score_with_learning_hello_eval⟩

/-- Claim C5 counterexample: a single Twitter tag of relevance 49 and no
data backing.  The mean relevance is 49, so the relevance term is
(49-50)/2 = -0.5; Python int() truncates it to 0 and the code scores 75,
while the claimed mathematical floor gives -1 and a score of 74. -/
theorem c5_counterexample_trunc_not_floor :
    score_hashtag_strategy [⟨"tag", 49, "Medium", "r"⟩] Platform.Twitter = 75 ∧
    hashtag_strategy_per_claim [⟨"tag", 49, "Medium", "r"⟩] Platform.Twitter = 74 ∧
    (75 : Int) ≠ 74 := by
  refine ⟨?_, ?_, by norm_num⟩
  · have hfil : (([⟨"tag", 49, "Medium", "r"⟩] : List HashtagItem).filter
        (fun h => containsSeq h.reason.data dataMarker)).length = 0 := rfl
    simp only [score_hashtag_strategy, hfil]
    norm_num [truncQ]
  · have hfil : (([⟨"tag", 49, "Medium", "r"⟩] : List HashtagItem).filter
        (fun h => containsSeq h.reason.data dataMarker)).length = 0 := rfl
    simp only [hashtag_strategy_per_claim, hfil]
    norm_num

/-- Claim C5 (amended): the hashtag-strategy score is the clamp to 0..100 of
50, plus the platform count-band adjustment (+25 in band, +15 Instagram 5-7,
-15 Twitter outside 1-3), plus the relevance term (meanRelevance-50)/2
truncated toward zero (not floored), plus min(15, 5*dataBacked); 0 on the
empty list. -/
theorem c5_amended_strategy_truncates (hashtags : List HashtagItem) (pf : Platform) :
    score_hashtag_strategy hashtags pf = hashtag_strategy_amended hashtags pf := by
  rw [score_hashtag_strategy, hashtag_strategy_amended]
  by_cases he : hashtags.isEmpty
  · simp [he]
  · simp only [he, Bool.false_eq_true, if_false]
    generalize truncQ ((((hashtags.map (fun h => (h.relevance : ℚ))).sum) /
      ((hashtags.length : Nat) : ℚ) - 50) / 2) = t
    generalize ((hashtags.filter
      (fun h => containsSeq h.reason.data dataMarker)).length : Int) = d
    cases pf <;>
      simp only [eq_self_iff_true, true_and, reduceCtorEq, false_and, or_false,
        false_or, if_false, not_false_iff] <;>
      split_ifs <;> omega

/-- The Twitter scenario of claim C5: three tags of relevances 95, 90, 85
with no data backing score 95. -/
theorem c5_scenario_witnessed :
    score_hashtag_strategy
      [⟨"a", 95, "High", "x"⟩, ⟨"b", 90, "Medium", "y"⟩, ⟨"c", 85, "Medium", "z"⟩]
      Platform.Twitter = 95 := by
  have hfil : (([⟨"a", 95, "High", "x"⟩, ⟨"b", 90, "Medium", "y"⟩,
      ⟨"c", 85, "Medium", "z"⟩] : List HashtagItem).filter
        (fun h => containsSeq h.reason.data dataMarker)).length = 0 := rfl
  have hmap : (([⟨"a", 95, "High", "x"⟩, ⟨"b", 90, "Medium", "y"⟩,
      ⟨"c", 85, "Medium", "z"⟩] : List HashtagItem).map
        (fun h => (h.relevance : ℚ))).sum = 270 := by norm_num
  simp only [score_hashtag_strategy, hfil, hmap]
  norm_num [truncQ]

/-- Claim C6: for non-empty text the content-quality score is exactly the
specified sum of independent contributions clamped to 0..100: the
optimal-length deviation bands are strict (a deviation of exactly 50 earns
15, not 25), the platform length ranges apply only when no optimal length is
known, and the question, emoji and leading-uppercase bonuses are 10, 10
and 5. -/
theorem c6_content_quality_formula (text : String) (pf : Platform)
    (insights : Insights) (h : text ≠ "") :
    score_content_quality_learned text pf insights =
      some (content_quality_per_claim text pf insights) := by
  cases hd : text.data with
  | nil =>
    refine absurd ?_ h
    cases text with
    | mk d =>
      have hd2 : d = [] := hd
      subst hd2
      rfl
  | cons c cs =>
    simp only [score_content_quality_learned, content_quality_per_claim, hd,
      List.headD_cons, Option.some.injEq]
    cases pf <;>
      simp only [eq_self_iff_true, true_and, reduceCtorEq, false_and, or_false,
        false_or, if_false, not_false_iff] <;>
      split_ifs <;> omega

/-- Witness for claim C6 at a concrete input. -/
theorem c6_witness :
    ("Hi?" ≠ "") ∧
    score_content_quality_learned "Hi?" Platform.Twitter noHistory =
      some (content_quality_per_claim "Hi?" Platform.Twitter noHistory) :=
  ⟨by decide, c6_content_quality_formula "Hi?" Platform.Twitter noHistory (by decide)⟩

/-- Claim C10: the content scorer indexes text[0] unconditionally, so the
empty string reaches the error branch instead of producing a score, while
every non-empty text yields a score within 0..100. -/
theorem c10_empty_text_errors (pf : Platform) (insights : Insights)
    (text : String) (h : text ≠ "") :
    score_content_quality_learned "" pf insights = none ∧
    ∃ s, score_content_quality_learned text pf insights = some s ∧
      0 ≤ s ∧ s ≤ 100 := by
  constructor
  · rfl
  · cases hd : text.data with
    | nil =>
      refine absurd ?_ h
      cases text with
      | mk d =>
        have hd2 : d = [] := hd
        subst hd2
        rfl
    | cons c cs =>
      cases hs : score_content_quality_learned text pf insights with
      | none =>
        simp only [score_content_quality_learned, hd] at hs
        exact Option.noConfusion hs
      | some s =>
        exact ⟨s, rfl, score_content_quality_learned_bounds text pf insights s hs⟩

/-- Witness for claim C10 at a concrete input. -/
theorem c10_witness :
    ("A" ≠ "") ∧
    (score_content_quality_learned "" Platform.Instagram noHistory = none ∧
    ∃ s, score_content_quality_learned "A" Platform.Instagram noHistory = some s ∧
      0 ≤ s ∧ s ≤ 100) :=
  ⟨by decide, c10_empty_text_errors Platform.Instagram noHistory "A" (by decide)⟩

/- ------------------------------------------------------------------ -/
/- Helper lemmas about the hashtag_stats upsert                        -/
/- ------------------------------------------------------------------ -/

theorem upsertHashtagStat_of_forall_ne (stats : List StatsRow) (tag : String)
    (pf : Platform) (rate : ℚ) (h : ∀ r ∈ stats, r.hashtag ≠ tag) :
    upsertHashtagStat stats tag pf rate = stats ++ [⟨tag, pf, 1, rate⟩] := by
  induction stats with
  | nil => rfl
  | cons r rs ih =>
    have hr : r.hashtag ≠ tag := h r (List.mem_cons_self r rs)
    simp only [upsertHashtagStat, if_neg hr, List.cons_append, List.cons.injEq, true_and]
    exact ih (fun x hx => h x (List.mem_cons_of_mem r hx))

theorem upsertHashtagStat_keys_platform_of_mem (stats : List StatsRow) (tag : String)
    (pf : Platform) (rate : ℚ) (h : ∃ r ∈ stats, r.hashtag = tag) :
    (upsertHashtagStat stats tag pf rate).map (fun r => (r.hashtag, r.platform)) =
      stats.map (fun r => (r.hashtag, r.platform)) := by
  induction stats with
  | nil => simp at h
  | cons r rs ih =>
    by_cases hr : r.hashtag = tag
    · simp only [upsertHashtagStat, if_pos hr, List.map_cons]
    · simp only [upsertHashtagStat, if_neg hr, List.map_cons, List.cons.injEq, true_and]
      apply ih
      rcases h with ⟨x, hx, hxt⟩
      rcases List.mem_cons.mp hx with hx1 | hx2
      · exact absurd (hx1 ▸ hxt) hr
      · exact ⟨x, hx2, hxt⟩

theorem upsertHashtagStat_keys_nodup (stats : List StatsRow) (tag : String)
    (pf : Platform) (rate : ℚ) (hnd : (stats.map StatsRow.hashtag).Nodup) :
    ((upsertHashtagStat stats tag pf rate).map StatsRow.hashtag).Nodup := by
  by_cases h : ∃ r ∈ stats, r.hashtag = tag
  · have hkeys := upsertHashtagStat_keys_platform_of_mem stats tag pf rate h
    have : (upsertHashtagStat stats tag pf rate).map StatsRow.hashtag =
        stats.map StatsRow.hashtag := by
      have := congrArg (List.map Prod.fst) hkeys
      simpa [List.map_map, Function.comp] using this
    rw [this]; exact hnd
  · push_neg at h
    rw [upsertHashtagStat_of_forall_ne stats tag pf rate h]
    simp only [List.map_append, List.map_cons, List.map_nil]
    rw [List.nodup_append]
    refine ⟨hnd, List.nodup_singleton tag, ?_⟩
    intro a ha hb
    simp only [List.mem_singleton] at hb
    rcases List.mem_map.mp ha with ⟨x, hx, hxa⟩
    exact h x hx (hxa.trans hb)

/- ------------------------------------------------------------------ -/
/- Claims C1, C2, C9                                                   -/
/- ------------------------------------------------------------------ -/

/-- Concrete store for the aggregate claims: Twitter posts 1 and 2, each
assigned the hashtag tech, no outcomes reported yet. -/
def twoPostDb : Store :=
  { posts := [⟨1, Platform.Twitter, "a", 1, false, false⟩,
              ⟨2, Platform.Twitter, "b", 1, false, false⟩],
    hashtags := [⟨1, "tech", 85⟩, ⟨2, "tech", 85⟩],
    performance := [],
    hashtag_stats := [] }

/-- Claim C1 (code bug): reporting outcomes with engagement rates 200 then 400
for the pair (tech, Twitter) leaves avg_engagement = 400, not the true mean
300, and reporting in the opposite order leaves 200 instead: the SQL
DO UPDATE reads the pre-update total_uses, so every update divides by the old
count and the first recorded rate is dropped from the average. -/
theorem c1_incremental_mean_drops_first_rate :
    ((update_actual_performance twoPostDb 1 2 0 0 1).bind
        (fun db1 => update_actual_performance db1 2 4 0 0 1)) =
      some { twoPostDb with
               performance := [⟨1, 2, 0, 0, 1, 200⟩, ⟨2, 4, 0, 0, 1, 400⟩],
               hashtag_stats := [⟨"tech", Platform.Twitter, 2, 400⟩] } ∧
    ((update_actual_performance twoPostDb 2 4 0 0 1).bind
        (fun db1 => update_actual_performance db1 1 2 0 0 1)) =
      some { twoPostDb with
               performance := [⟨2, 4, 0, 0, 1, 400⟩, ⟨1, 2, 0, 0, 1, 200⟩],
               hashtag_stats := [⟨"tech", Platform.Twitter, 2, 200⟩] } ∧
    meanQ [200, 400] = 300 ∧ (400 : ℚ) ≠ 300 ∧ (200 : ℚ) ≠ 300 := by
  refine ⟨?_, ?_, ?_, by norm_num, by norm_num⟩
  · simp [twoPostDb, update_actual_performance, upsertHashtagStat,
      List.find?, List.filter, Option.bind]
    norm_num
  · simp [twoPostDb, update_actual_performance, upsertHashtagStat,
      List.find?, List.filter, Option.bind]
    norm_num
  · norm_num [meanQ]

/-- Concrete store for claim C2: one Twitter post with one hashtag and no
outcome yet. -/
def onePostDb : Store :=
  { posts := [⟨1, Platform.Twitter, "a", 1, false, false⟩],
    hashtags := [⟨1, "tech", 85⟩],
    performance := [],
    hashtag_stats := [] }

/-- Claim C2 counterexample: called with impressions = 0 the store operation
does not fail and does not leave the store unchanged: it writes the outcome
row with engagement_rate 0 and creates the hashtag aggregate. -/
theorem c2_counterexample_zero_impressions_writes :
    update_actual_performance onePostDb 1 5 1 1 0 =
      some { onePostDb with
               performance := [⟨1, 5, 1, 1, 0, 0⟩],
               hashtag_stats := [⟨"tech", Platform.Twitter, 1, 0⟩] } ∧
    update_actual_performance onePostDb 1 5 1 1 0 ≠ some onePostDb := by
  constructor
  · simp [onePostDb, update_actual_performance, upsertHashtagStat,
      List.find?, List.filter]
  · simp [onePostDb, update_actual_performance, upsertHashtagStat,
      List.find?, List.filter]

/-- Claim C2 (amended): the caller-side guard in the tracking tab rejects a
non-positive impressions value with an error message and never reaches the
store; the store-level update_actual_performance itself does not fail on
impressions ≤ 0: whenever it succeeds it has written the outcome row with
engagement_rate 0 and has upserted every assigned hashtag aggregate with
rate 0. -/
theorem c2_amended_guard_rejects_store_writes_zero (db : Store) (post_id : Nat)
    (likes comments shares impressions : Int) (h : impressions ≤ 0) :
    report_outcome_guarded db post_id likes comments shares impressions =
      Except.error "Please enter impressions greater than 0" ∧
    (∀ db1, update_actual_performance db post_id likes comments shares impressions =
        some db1 →
      (⟨post_id, likes, comments, shares, impressions, 0⟩ : PerfRow) ∈
          db1.performance ∧
      ∀ post, db.posts.find? (fun p => p.id == post_id) = some post →
        db1.hashtag_stats =
          ((db.hashtags.filter (fun hr => hr.post_id == post_id)).map
              (fun hr => hr.hashtag)).foldl
            (fun s t => upsertHashtagStat s t post.platform 0) db.hashtag_stats) := by
  have hle : ¬ (0 < impressions) := not_lt.mpr h
  constructor
  · simp only [report_outcome_guarded, if_neg hle]
  · intro db1 hdb1
    simp only [update_actual_performance, if_neg hle] at hdb1
    cases hfind : db.posts.find? (fun p => p.id == post_id) with
    | none => rw [hfind] at hdb1; exact absurd hdb1 (by simp)
    | some post =>
      rw [hfind] at hdb1
      simp only [Option.some.injEq] at hdb1
      subst hdb1
      constructor
      · simp
      · intro post1 hpost1
        injection hpost1 with hpp
        subst hpp
        rfl

/-- Witness for the amended claim C2 at a concrete input. -/
theorem c2_amended_witness :
    ((0 : Int) ≤ 0) ∧
    (report_outcome_guarded onePostDb 1 5 1 1 0 =
      Except.error "Please enter impressions greater than 0" ∧
    (∀ db1, update_actual_performance onePostDb 1 5 1 1 0 = some db1 →
      (⟨1, 5, 1, 1, 0, 0⟩ : PerfRow) ∈ db1.performance ∧
      ∀ post, onePostDb.posts.find? (fun p => p.id == 1) = some post →
        db1.hashtag_stats =
          ((onePostDb.hashtags.filter (fun hr => hr.post_id == 1)).map
              (fun hr => hr.hashtag)).foldl
            (fun s t => upsertHashtagStat s t post.platform 0)
            onePostDb.hashtag_stats)) :=
  ⟨by decide, c2_amended_guard_rejects_store_writes_zero onePostDb 1 5 1 1 0 (by decide)⟩

/-- Claim C9: the hashtag_stats table keys on the hashtag string alone, so the
upsert keeps at most one row per hashtag across both platforms; when a row
for the tag already exists the upsert updates that shared row, changing
neither its hashtag nor its stored platform (whatever platform the report
came from); when no row exists a fresh row is appended carrying the
reporting platform. -/
theorem c9_one_row_per_hashtag_platform_frozen (stats : List StatsRow)
    (tag : String) (pf : Platform) (rate : ℚ)
    (hnd : (stats.map StatsRow.hashtag).Nodup) :
    ((upsertHashtagStat stats tag pf rate).map StatsRow.hashtag).Nodup ∧
    ((∃ r ∈ stats, r.hashtag = tag) →
      (upsertHashtagStat stats tag pf rate).map (fun r => (r.hashtag, r.platform)) =
        stats.map (fun r => (r.hashtag, r.platform))) ∧
    ((∀ r ∈ stats, r.hashtag ≠ tag) →
      upsertHashtagStat stats tag pf rate = stats ++ [⟨tag, pf, 1, rate⟩]) :=
  ⟨upsertHashtagStat_keys_nodup stats tag pf rate hnd,
   fun h => upsertHashtagStat_keys_platform_of_mem stats tag pf rate h,
   fun h => upsertHashtagStat_of_forall_ne stats tag pf rate h⟩

/-- Witness for claim C9 at a concrete input: an Instagram-side report on a
tag first recorded under Twitter updates the shared row and keeps Twitter in
its platform column. -/
theorem c9_witness :
    (([⟨"tech", Platform.Twitter, 1, 2⟩] : List StatsRow).map
        StatsRow.hashtag).Nodup ∧
    (((upsertHashtagStat [⟨"tech", Platform.Twitter, 1, 2⟩] "tech"
          Platform.Instagram 4).map StatsRow.hashtag).Nodup ∧
    ((∃ r ∈ ([⟨"tech", Platform.Twitter, 1, 2⟩] : List StatsRow),
        r.hashtag = "tech") →
      (upsertHashtagStat [⟨"tech", Platform.Twitter, 1, 2⟩] "tech"
          Platform.Instagram 4).map (fun r => (r.hashtag, r.platform)) =
        ([⟨"tech", Platform.Twitter, 1, 2⟩] : List StatsRow).map
          (fun r => (r.hashtag, r.platform))) ∧
    ((∀ r ∈ ([⟨"tech", Platform.Twitter, 1, 2⟩] : List StatsRow),
        r.hashtag ≠ "tech") →
      upsertHashtagStat [⟨"tech", Platform.Twitter, 1, 2⟩] "tech"
          Platform.Instagram 4 =
        [⟨"tech", Platform.Twitter, 1, 2⟩] ++ [⟨"tech", Platform.Instagram, 1, 4⟩])) :=
  ⟨by decide,
   c9_one_row_per_hashtag_platform_frozen [⟨"tech", Platform.Twitter, 1, 2⟩]
     "tech" Platform.Instagram 4 (by decide)⟩

/- ------------------------------------------------------------------ -/
/- Learning insights (claim C3)                                        -/
/- ------------------------------------------------------------------ -/

/-- SQL inner join of the posts of a platform with their performance rows,
in posts order: one pair per matching performance row. -/
def platformOutcomeJoin (db : Store) (pf : Platform) : List (PostRow × PerfRow) :=
  (db.posts.filter (fun p => p.platform == pf)).flatMap
    (fun p => (db.performance.filter (fun r => r.post_id == p.id)).map (fun r => (p, r)))

/-- PerformanceDatabase.get_learning_insights.  Note two source details: the
optimal-length query compares each engagement rate against
AVG(engagement_rate) over the WHOLE performance table (no platform filter in
the subquery), and Python applies int() to the resulting mean length,
treating a falsy result (NULL, and also 0.0) as absent. -/
def get_learning_insights (db : Store) (pf : Platform) : Insights :=
  let joinRows := platformOutcomeJoin db pf
  let total_posts := (db.posts.filter (fun p => p.platform == pf)).length
  let tracked_posts := joinRows.length
  let avg_engagement : ℚ :=
    if joinRows.isEmpty then 0
    else meanQ (joinRows.map (fun pr => pr.2.engagement_rate))
  let best_hashtag : Option (String × ℚ) :=
    ((db.hashtag_stats.filter
        (fun r => r.platform == pf && decide (3 ≤ r.total_uses))).insertionSort
      (fun a b => b.avg_engagement ≤ a.avg_engagement)).head?.map
      (fun r => (r.hashtag, r.avg_engagement))
  let optimal_length : Option Int :=
    if db.performance.isEmpty then none
    else
      let g := meanQ (db.performance.map (fun r => r.engagement_rate))
      let lens := (joinRows.filter
        (fun pr => decide (g < pr.2.engagement_rate))).map
          (fun pr => (pr.1.content_length : ℚ))
      if lens.isEmpty then none
      else
        let m := meanQ lens
        if m = 0 then none else some (truncQ m)
  ⟨total_posts, tracked_posts, avg_engagement, best_hashtag, optimal_length⟩

/-- Optimal length exactly as claim C3 words it: the mean character length
of the outcome-backed posts of the platform whose engagement rate exceeds
the PLATFORM-wide mean engagement rate, none when no such post exists. -/
def optimal_length_per_claim (db : Store) (pf : Platform) : Option ℚ :=
  let joinRows := platformOutcomeJoin db pf
  if joinRows.isEmpty then none
  else
    let platformMean := meanQ (joinRows.map (fun pr => pr.2.engagement_rate))
    let winners := joinRows.filter
      (fun pr => decide (platformMean < pr.2.engagement_rate))
    if winners.isEmpty then none
    else some (meanQ (winners.map (fun pr => (pr.1.content_length : ℚ))))

/-- Optimal length as amended: none when the performance table is empty;
otherwise, with g the mean engagement rate over the WHOLE performance table
(both platforms), the int()-truncated mean content length of the platform
posts having an outcome row with rate above g; none when no such post
exists or when the mean length is zero (falsy in Python). -/
def optimal_length_amended (db : Store) (pf : Platform) : Option Int :=
  if db.performance.isEmpty then none
  else
    let g := meanQ (db.performance.map (fun r => r.engagement_rate))
    let winners := db.posts.filter
      (fun p => p.platform == pf &&
        db.performance.any (fun r => r.post_id == p.id && decide (g < r.engagement_rate)))
    if winners.isEmpty then none
    else
      let m := meanQ (winners.map (fun p => (p.content_length : ℚ)))
      if m = 0 then none else some (truncQ m)

theorem filter_keyed_length_le_one (perf : List PerfRow) (i : Nat)
    (q : PerfRow → Bool) (hnd : (perf.map PerfRow.post_id).Nodup) :
    (perf.filter (fun r => r.post_id == i && q r)).length ≤ 1 := by
  induction perf with
  | nil => simp
  | cons r rs ih =>
    simp only [List.map_cons, List.nodup_cons] at hnd
    simp only [List.filter_cons]
    by_cases hri : (r.post_id == i && q r) = true
    · rw [if_pos hri]
      have hpid : r.post_id = i := by
        have h2 := hri
        simp only [Bool.and_eq_true, beq_iff_eq] at h2
        exact h2.1
      have hnil : rs.filter (fun x => x.post_id == i && q x) = [] := by
        rw [List.filter_eq_nil_iff]
        intro a ha hq
        have hai : a.post_id = i := by
          have h3 := hq
          simp only [Bool.and_eq_true, beq_iff_eq] at h3
          exact h3.1
        exact hnd.1 (hpid ▸ hai ▸ List.mem_map.mpr ⟨a, ha, rfl⟩)
      rw [hnil]
      simp
    · rw [if_neg hri]
      exact ih hnd.2

theorem flatMap_outcome_filter_eq (posts : List PostRow) (perf : List PerfRow)
    (pf : Platform) (g : ℚ) (hnd : (perf.map PerfRow.post_id).Nodup) :
    (((posts.filter (fun p => p.platform == pf)).flatMap
        (fun p => (perf.filter (fun r => r.post_id == p.id)).map
          (fun r => (p, r)))).filter
      (fun pr => decide (g < pr.2.engagement_rate))).map
        (fun pr => (pr.1.content_length : ℚ)) =
    (posts.filter (fun p => p.platform == pf &&
        perf.any (fun r => r.post_id == p.id && decide (g < r.engagement_rate)))).map
      (fun p => (p.content_length : ℚ)) := by
  induction posts with
  | nil => rfl
  | cons p ps ih =>
    simp only [List.filter_cons]
    by_cases hpf : (p.platform == pf) = true
    · rw [if_pos hpf, List.flatMap_cons, List.filter_append,
        List.map_append, ih]
      have hhead : (((perf.filter (fun r => r.post_id == p.id)).map
            (fun r => (p, r))).filter
          (fun pr => decide (g < pr.2.engagement_rate))).map
            (fun pr => (pr.1.content_length : ℚ)) =
          (perf.filter (fun r => r.post_id == p.id && decide (g < r.engagement_rate))).map
            (fun _ => (p.content_length : ℚ)) := by
        rw [List.filter_map, List.map_map, List.filter_filter]
        apply congrArg
        apply List.filter_congr
        intro a _
        simp [Bool.and_comm]
      rw [hhead]
      by_cases hany :
          (perf.any (fun r => r.post_id == p.id && decide (g < r.engagement_rate))) = true
      · have hone : (perf.filter
            (fun r => r.post_id == p.id && decide (g < r.engagement_rate))).length = 1 := by
          have hle : (perf.filter
              (fun r => r.post_id == p.id && decide (g < r.engagement_rate))).length ≤ 1 :=
            filter_keyed_length_le_one perf p.id
              (fun r => decide (g < r.engagement_rate)) hnd
          have hpos : 0 < (perf.filter
              (fun r => r.post_id == p.id && decide (g < r.engagement_rate))).length := by
            rcases List.any_eq_true.mp hany with ⟨x, hx, hxp⟩
            exact List.length_pos.mpr
              (fun hc => (List.filter_eq_nil_iff.mp hc x hx) hxp)
          omega
        rcases List.length_eq_one.mp hone with ⟨a, ha⟩
        rw [ha, if_pos (show (p.platform == pf && perf.any
          (fun r => r.post_id == p.id && decide (g < r.engagement_rate))) = true by
            simp [hpf, hany]), List.map_cons]
        rfl
      · have hnil : perf.filter
            (fun r => r.post_id == p.id && decide (g < r.engagement_rate)) = [] := by
          rw [List.filter_eq_nil_iff]
          intro a ha hq
          exact hany (List.any_eq_true.mpr ⟨a, ha, hq⟩)
        rw [hnil, if_neg (show ¬ (p.platform == pf && perf.any
          (fun r => r.post_id == p.id && decide (g < r.engagement_rate))) = true by
            simp [hpf, hany])]
        rfl
    · rw [if_neg hpf, if_neg (show ¬ (p.platform == pf && perf.any
        (fun r => r.post_id == p.id && decide (g < r.engagement_rate))) = true by
          simp [hpf])]
      exact ih

/-- Claim C3 (amended): the optimal length is none when the performance
table is empty; otherwise it is the int()-truncated mean content length of
the platform posts whose outcome engagement rate exceeds the mean
engagement rate of the WHOLE performance table (both platforms, the
subquery has no platform filter), and none when no such post exists or the
mean length is zero.  Stated under uniqueness of performance.post_id, the
schema UNIQUE constraint. -/
theorem c3_amended_optimal_length_global_mean (db : Store) (pf : Platform)
    (hnd : (db.performance.map PerfRow.post_id).Nodup) :
    (get_learning_insights db pf).optimal_length = optimal_length_amended db pf := by
  simp only [get_learning_insights, optimal_length_amended, platformOutcomeJoin]
  by_cases hperf : db.performance.isEmpty
  · simp [hperf]
  · simp only [hperf, Bool.false_eq_true, if_false]
    rw [flatMap_outcome_filter_eq db.posts db.performance pf
      (meanQ (db.performance.map (fun r => r.engagement_rate))) hnd]
    by_cases hw : (db.posts.filter (fun p => p.platform == pf &&
        db.performance.any (fun r => r.post_id == p.id &&
          decide (meanQ (db.performance.map (fun r => r.engagement_rate)) <
            r.engagement_rate)))) = []
    · simp [hw]
    · simp [hw, List.isEmpty_iff, List.map_eq_nil_iff]

/-- Store exhibiting the platform-mean vs global-mean divergence: one
Twitter post (length 100, engagement rate 10) and two Instagram posts with
engagement rate 0. -/
def mixedDb : Store :=
  { posts := [⟨1, Platform.Twitter, "a", 100, false, false⟩,
              ⟨2, Platform.Instagram, "b", 50, false, false⟩,
              ⟨3, Platform.Instagram, "c", 50, false, false⟩],
    hashtags := [],
    performance := [⟨1, 10, 0, 0, 100, 10⟩, ⟨2, 0, 0, 0, 1, 0⟩, ⟨3, 0, 0, 0, 1, 0⟩],
    hashtag_stats := [] }

/-- Claim C3 counterexample: on mixedDb the Twitter-wide mean engagement is
10 and no Twitter post exceeds it, so the claimed value is none; the code
compares against the mean over all outcome rows, 10/3, and returns
some 100. -/
theorem c3_counterexample_platform_vs_global :
    (get_learning_insights mixedDb Platform.Twitter).optimal_length = some 100 ∧
    optimal_length_per_claim mixedDb Platform.Twitter = none := by
  constructor
  · have hj : platformOutcomeJoin mixedDb Platform.Twitter =
        [(⟨1, Platform.Twitter, "a", 100, false, false⟩, ⟨1, 10, 0, 0, 100, 10⟩)] := rfl
    have hperf : mixedDb.performance.isEmpty = false := rfl
    have hg : meanQ (mixedDb.performance.map (fun r => r.engagement_rate)) = 10 / 3 := by
      norm_num [mixedDb, meanQ]
    simp only [get_learning_insights, hj, hperf, hg, Bool.false_eq_true, if_false,
      List.filter_cons, List.filter_nil]
    norm_num [meanQ, truncQ]
  · have hj : platformOutcomeJoin mixedDb Platform.Twitter =
        [(⟨1, Platform.Twitter, "a", 100, false, false⟩, ⟨1, 10, 0, 0, 100, 10⟩)] := rfl
    simp only [optimal_length_per_claim, hj, List.filter_cons, List.filter_nil]
    norm_num [meanQ]

/-- Witness for the amended claim C3 at a concrete input. -/
theorem c3_amended_witness :
    ((mixedDb.performance.map PerfRow.post_id).Nodup) ∧
    (get_learning_insights mixedDb Platform.Twitter).optimal_length =
      optimal_length_amended mixedDb Platform.Twitter :=
  ⟨by decide, c3_amended_optimal_length_global_mean mixedDb Platform.Twitter (by decide)⟩

/- ------------------------------------------------------------------ -/
/- Similar successful posts (claim C7)                                 -/
/- ------------------------------------------------------------------ -/

/-- The regex word class over ASCII: letters, digits, underscore. -/
def isWordChar (c : Char) : Bool := c.isAlpha || c.isDigit || c == '_'

/-- Splits a character list into its maximal word-character runs. -/
def wordRunsAux : List Char → List Char → List (List Char)
  | [], acc => if acc.isEmpty then [] else [acc.reverse]
  | c :: cs, acc =>
    if isWordChar c then wordRunsAux cs (c :: acc)
    else if acc.isEmpty then wordRunsAux cs []
    else acc.reverse :: wordRunsAux cs []

def wordRuns (cs : List Char) : List (List Char) := wordRunsAux cs []

/-- re.findall of a bounded all-letter word over the lowercased text: the
maximal word-character runs that consist only of letters and have length at
least n, in text order, duplicates kept.  (A letter run adjacent to a digit
or underscore has no word boundary and is correctly not matched.) -/
def findallAlpha (n : Nat) (s : String) : List String :=
  ((wordRuns (pyLower s)).filter
      (fun r => r.all Char.isAlpha && decide (n ≤ r.length))).map
    (fun r => String.mk r)

/-- Python set(re.findall(r'\b[a-zA-Z]{4,}\b', s.lower())): the tokens of
get_similar_successful_posts, de-duplicated. -/
def alphaTokenSet (s : String) : List String := (findallAlpha 4 s).dedup

/-- Jaccard similarity of two de-duplicated token lists: |a ∩ b| / |a ∪ b|,
and 0 when the union is empty. -/
def jaccardQ (a b : List String) : ℚ :=
  let interCard := (a.filter (fun x => b.contains x)).length
  let unionCard := (a ++ b.filter (fun x => !(a.contains x))).length
  if unionCard = 0 then 0 else (interCard : ℚ) / (unionCard : ℚ)

/-- A row returned by get_similar_successful_posts. -/
structure SimilarPost where
  post_id : Nat
  content : String
  engagement_rate : ℚ
  hashtags : List String
  similarity : ℚ
deriving DecidableEq, Repr

/-- The display truncation of a stored content string. -/
def truncateContent (s : String) : String :=
  if 100 < s.length then String.mk (s.data.take 100) ++ "..." else s

/-- The candidate rows of the SQL pool query: posts of the platform having
a performance row with engagement_rate > 3.0 and at least one hashtag row
(the inner join drops hashtag-less posts), paired with their engagement
rate, in table order. -/
def similarCandidates (db : Store) (pf : Platform) : List (PostRow × ℚ) :=
  db.posts.filterMap (fun p =>
    if p.platform = pf then
      match db.performance.find? (fun r => r.post_id == p.id) with
      | some perf =>
        if 3 < perf.engagement_rate ∧
            (db.hashtags.filter (fun h => h.post_id == p.id)) ≠ [] then
          some (p, perf.engagement_rate)
        else none
      | none => none
    else none)

/-- The pool: candidates ordered by engagement rate descending (stable in
table order) and capped at limit*2 rows by the SQL LIMIT. -/
def similarPool (db : Store) (pf : Platform) (limit : Nat) : List (PostRow × ℚ) :=
  ((similarCandidates db pf).insertionSort (fun a b => b.2 ≤ a.2)).take (limit * 2)

/-- PerformanceDatabase.get_similar_successful_posts: filter the pool by
Jaccard similarity > 0.2 against the query tokens (computed on the full
stored content, before display truncation), sort the kept rows by
engagement rate descending (Python sorted is stable) and return the first
limit rows. -/
def get_similar_successful_posts (db : Store) (content : String) (pf : Platform)
    (limit : Nat) : List SimilarPost :=
  let keywords := alphaTokenSet content
  let kept := (similarPool db pf limit).filterMap (fun pr =>
    let similarity := jaccardQ keywords (alphaTokenSet pr.1.content)
    if (1 : ℚ) / 5 < similarity then
      some ⟨pr.1.id, truncateContent pr.1.content, pr.2,
        (db.hashtags.filter (fun h => h.post_id == pr.1.id)).map (fun h => h.hashtag),
        similarity⟩
    else none)
  (kept.insertionSort (fun a b => b.engagement_rate ≤ a.engagement_rate)).take limit

instance : IsTotal SimilarPost (fun a b => b.engagement_rate ≤ a.engagement_rate) :=
  ⟨fun a b => le_total b.engagement_rate a.engagement_rate⟩

instance : IsTrans SimilarPost (fun a b => b.engagement_rate ≤ a.engagement_rate) :=
  ⟨fun _ _ _ hab hbc => le_trans hbc hab⟩

/-- Destructuring a member of the candidate list. -/
theorem mem_similarCandidates (db : Store) (pf : Platform) (pr : PostRow × ℚ)
    (h : pr ∈ similarCandidates db pf) :
    pr.1 ∈ db.posts ∧ pr.1.platform = pf ∧ 3 < pr.2 := by
  rcases List.mem_filterMap.mp h with ⟨p, hp, hf⟩
  by_cases hpl : p.platform = pf
  · rw [if_pos hpl] at hf
    cases hfind : db.performance.find? (fun x => x.post_id == p.id) with
    | none => rw [hfind] at hf; exact absurd hf (by simp)
    | some perf =>
      rw [hfind] at hf
      simp only [] at hf
      by_cases hcond : 3 < perf.engagement_rate ∧
          (db.hashtags.filter (fun h => h.post_id == p.id)) ≠ []
      · rw [if_pos hcond] at hf
        injection hf with hf
        subst hf
        exact ⟨hp, hpl, hcond.1⟩
      · rw [if_neg hcond] at hf; exact absurd hf (by simp)
  · rw [if_neg hpl] at hf; exact absurd hf (by simp)

/-- Claim C7: every returned post has engagement rate strictly above 3.0
and Jaccard similarity with the query strictly above 0.2 (1/5), computed
over the de-duplicated lowercase alphabetic tokens of length at least 4;
every returned post is drawn from the pool of at most limit*2 candidates;
the result is sorted by engagement rate descending and holds at most limit
rows. -/
theorem c7_similar_posts_properties (db : Store) (content : String)
    (pf : Platform) (limit : Nat) :
    (get_similar_successful_posts db content pf limit).length ≤ limit ∧
    (similarPool db pf limit).length ≤ limit * 2 ∧
    List.Pairwise (fun a b => b.engagement_rate ≤ a.engagement_rate)
      (get_similar_successful_posts db content pf limit) ∧
    ∀ r ∈ get_similar_successful_posts db content pf limit,
      3 < r.engagement_rate ∧
      (1 : ℚ) / 5 < r.similarity ∧
      r.post_id ∈ (similarPool db pf limit).map (fun pr => pr.1.id) ∧
      ∃ p ∈ db.posts, p.id = r.post_id ∧ p.platform = pf ∧
        r.similarity = jaccardQ (alphaTokenSet content) (alphaTokenSet p.content) := by
  refine ⟨?_, ?_, ?_, ?_⟩
  · exact List.length_take_le _ _
  · exact List.length_take_le _ _
  · exact ((List.sorted_insertionSort _ _).sublist (List.take_sublist _ _))
  · intro r hr
    have hr1 := List.mem_of_mem_take hr
    have hr2 := (List.perm_insertionSort
      (fun a b : SimilarPost => b.engagement_rate ≤ a.engagement_rate) _).mem_iff.mp hr1
    rcases List.mem_filterMap.mp hr2 with ⟨pr, hpr, hf⟩
    by_cases hsim : (1 : ℚ) / 5 <
        jaccardQ (alphaTokenSet content) (alphaTokenSet pr.1.content)
    · rw [if_pos hsim] at hf
      injection hf with hf
      subst hf
      have hc : pr ∈ similarCandidates db pf :=
        (List.perm_insertionSort (fun a b : PostRow × ℚ => b.2 ≤ a.2) _).mem_iff.mp
          (List.mem_of_mem_take hpr)
      rcases mem_similarCandidates db pf pr hc with ⟨hp1, hp2, hp3⟩
      exact ⟨hp3, hsim, List.mem_map.mpr ⟨pr, hpr, rfl⟩, pr.1, hp1, rfl, hp2, rfl⟩
    · rw [if_neg hsim] at hf; cases hf

/- ------------------------------------------------------------------ -/
/- The hashtag proposer (claim C8)                                     -/
/- ------------------------------------------------------------------ -/

/-- Row of get_top_hashtags. -/
structure TopHashtag where
  hashtag : String
  total_uses : Nat
  avg_engagement : ℚ
deriving DecidableEq, Repr

/-- The exact output count: 3 hashtags for Twitter, 12 for Instagram. -/
def numHashtags (pf : Platform) : Nat :=
  match pf with
  | Platform.Twitter => 3
  | Platform.Instagram => 12

/-- The fixed stop-word set of the fallback keyword extraction. -/
def commonWords : List String :=
  ["this", "that", "with", "from", "have", "been", "were", "their",
   "would", "about", "when", "just", "like", "some", "what", "your",
   "will", "they", "them", "into", "than", "more", "very", "can"]

/-- The fixed generic-tag pool of fallback strategy 3 (15 distinct tags). -/
def genericTags : List String :=
  ["content", "socialmedia", "marketing", "community", "growth",
   "tips", "inspiration", "motivation", "business", "success",
   "trending", "viral", "engage", "share", "follow"]

/-- Fallback strategy 1: alphabetic tokens of length at least 3, stop words
removed, duplicates kept, capped at the target count; the i-th keyword gets
relevance 85 - 5*i. -/
def keywordItems (text : String) (target : Nat) : List HashtagItem :=
  ((((findallAlpha 3 text).filter
      (fun w => !(commonWords.contains w))).take target).enum).map
    (fun iw => ⟨iw.2, 85 - 5 * (iw.1 : Int), "Medium",
      "Extracted from content keywords"⟩)

/-- The fill loop shared by fallback strategies 2 and 3: walk the candidate
list, stop once the target count is reached, and append each candidate
whose lowercased tag is not already present. -/
def fillItems (cur : List HashtagItem) (target : Nat) :
    List HashtagItem → List HashtagItem
  | [] => cur
  | c :: cs =>
    if target ≤ cur.length then cur
    else if cur.any (fun h => pyLower h.tag == pyLower c.tag) then
      fillItems cur target cs
    else fillItems (cur ++ [c]) target cs

/-- Fallback strategy 2 candidates: proven hashtags at relevance 90.  The
one-decimal rendering of the average inside the reason string is
presentation only and is modelled by toString. -/
def provenItems (tops : List TopHashtag) : List HashtagItem :=
  tops.map (fun t => ⟨t.hashtag, 90, "High",
    "Proven performer: " ++ toString t.avg_engagement ++ "% avg"⟩)

/-- Fallback strategy 3 candidates: the generic pool at relevance 70. -/
def genericItems : List HashtagItem :=
  genericTags.map (fun g => ⟨g, 70, "Medium", "General engagement hashtag"⟩)

/-- EnhancedHashtagAnalyzer._fallback_hashtags: the three strategies in
order, then the final safety truncation to the target count. -/
def fallback_hashtags (text : String) (pf : Platform)
    (top_hashtags : List TopHashtag) : List HashtagItem :=
  let target := numHashtags pf
  let step1 := keywordItems text target
  let step2 := fillItems step1 target (provenItems top_hashtags)
  let step3 := fillItems step2 target genericItems
  step3.take target

/-- Step 4 of the proposer: an oracle tag matching a tracked hashtag
case-insensitively gains 10 relevance (capped at 100) and the
data-provenance note; the loop runs over every tracked hashtag. -/
def boostItem (tops : List TopHashtag) (h : HashtagItem) : HashtagItem :=
  tops.foldl (fun h t =>
    if pyLower h.tag == pyLower t.hashtag then
      { h with relevance := min 100 (h.relevance + 10),
               reason := h.reason ++ " [✓ Data: " ++
                 toString t.avg_engagement ++ "% avg]" }
    else h) h

/-- EnhancedHashtagAnalyzer._generate_hashtags_with_learning.  The decoded
oracle reply is an input of the embedding: none covers an unavailable
oracle, a reply without a well-formed JSON array, and a decode failure.  A
decoded list shorter than the target triggers the fallback; otherwise every
item is boosted against the tracked hashtags and the list is truncated to
the target. -/
def generate_hashtags_with_learning (text : String) (pf : Platform)
    (top_hashtags : List TopHashtag)
    (oracleReply : Option (List HashtagItem)) : List HashtagItem :=
  let num := numHashtags pf
  match oracleReply with
  | some hs =>
    if hs.length < num then fallback_hashtags text pf top_hashtags
    else (hs.map (boostItem top_hashtags)).take num
  | none => fallback_hashtags text pf top_hashtags

/- Counting lemmas for the fallback fill chain. -/

/-- Candidates blocked by the current list: those whose lowercased tag is
already present. -/
def blockedCount (cur cs : List HashtagItem) : Nat :=
  (cs.filter (fun c => cur.any (fun h => pyLower h.tag == pyLower c.tag))).length

theorem length_filter_or_le {α : Type} (p q : α → Bool) (l : List α) :
    (l.filter (fun a => p a || q a)).length ≤
      (l.filter p).length + (l.filter q).length := by
  induction l with
  | nil => simp
  | cons a l ih =>
    simp only [List.filter_cons]
    by_cases hp : p a = true <;> by_cases hq : q a = true <;>
      simp [hp, hq] <;> omega

theorem length_filter_eq_key_le_one (k : List Char) (cs : List HashtagItem)
    (hdist : cs.Pairwise (fun a b => pyLower a.tag ≠ pyLower b.tag)) :
    (cs.filter (fun c => k == pyLower c.tag)).length ≤ 1 := by
  induction cs with
  | nil => simp
  | cons c cs ih =>
    rcases List.pairwise_cons.mp hdist with ⟨hc, hcs⟩
    simp only [List.filter_cons]
    by_cases hk : (k == pyLower c.tag) = true
    · rw [if_pos hk]
      have hnil : cs.filter (fun d => k == pyLower d.tag) = [] := by
        rw [List.filter_eq_nil_iff]
        intro d hd hkd
        have h1 : k = pyLower c.tag := by simpa using hk
        have h2 : k = pyLower d.tag := by simpa using hkd
        exact hc d hd (h1 ▸ h2)
      rw [hnil]
      simp
    · rw [if_neg hk]
      exact ih hcs

theorem blockedCount_le (cur cs : List HashtagItem)
    (hdist : cs.Pairwise (fun a b => pyLower a.tag ≠ pyLower b.tag)) :
    blockedCount cur cs ≤ cur.length := by
  induction cur with
  | nil => simp [blockedCount]
  | cons h hs ih =>
    have hsplit : blockedCount (h :: hs) cs ≤
        (cs.filter (fun c => pyLower h.tag == pyLower c.tag)).length +
          blockedCount hs cs := by
      unfold blockedCount
      have hcg : (cs.filter (fun c => (h :: hs).any
          (fun x => pyLower x.tag == pyLower c.tag))) =
          (cs.filter (fun c => (pyLower h.tag == pyLower c.tag) ||
            hs.any (fun x => pyLower x.tag == pyLower c.tag))) := by
        apply List.filter_congr
        intro d _
        simp [List.any_cons]
      rw [hcg]
      exact length_filter_or_le _ _ cs
    have h1 := length_filter_eq_key_le_one (pyLower h.tag) cs hdist
    have h2 := ih
    simp only [List.length_cons]
    omega

theorem fillItems_length_le (target : Nat) (cs : List HashtagItem)
    (cur : List HashtagItem) (h : cur.length ≤ target) :
    (fillItems cur target cs).length ≤ target := by
  induction cs generalizing cur with
  | nil => simpa [fillItems] using h
  | cons c cs ih =>
    simp only [fillItems]
    by_cases ht : target ≤ cur.length
    · rw [if_pos ht]; exact h
    · rw [if_neg ht]
      by_cases hd : cur.any (fun x => pyLower x.tag == pyLower c.tag) = true
      · rw [if_pos hd]; exact ih cur h
      · rw [if_neg hd]
        refine ih (cur ++ [c]) ?_
        simp only [List.length_append, List.length_cons, List.length_nil]
        omega

theorem fillItems_length_ge (target : Nat) (cs : List HashtagItem)
    (cur : List HashtagItem)
    (hdist : cs.Pairwise (fun a b => pyLower a.tag ≠ pyLower b.tag)) :
    min target (cs.length - blockedCount cur cs + cur.length) ≤
      (fillItems cur target cs).length := by
  induction cs generalizing cur with
  | nil =>
    simp only [fillItems, List.length_nil, blockedCount, List.filter_nil,
      Nat.zero_sub, Nat.zero_add]
    omega
  | cons c cs ih =>
    rcases List.pairwise_cons.mp hdist with ⟨hc, hcs⟩
    have hble : blockedCount cur cs ≤ cs.length := by
      simpa [blockedCount] using List.length_filter_le _ cs
    simp only [fillItems]
    by_cases ht : target ≤ cur.length
    · rw [if_pos ht]
      omega
    · rw [if_neg ht]
      by_cases hb : cur.any (fun x => pyLower x.tag == pyLower c.tag) = true
      · rw [if_pos hb]
        have hbc : blockedCount cur (c :: cs) = blockedCount cur cs + 1 := by
          simp [blockedCount, List.filter_cons, hb]
        have hih := ih cur hcs
        rw [hbc]
        simp only [List.length_cons]
        omega
      · rw [if_neg hb]
        have hbc2 : blockedCount (cur ++ [c]) cs = blockedCount cur cs := by
          unfold blockedCount
          apply congrArg
          apply List.filter_congr
          intro d hd
          have hfalse : (pyLower c.tag == pyLower d.tag) = false := by
            rw [beq_eq_false_iff_ne]
            exact hc d hd
          simp [List.any_append, List.any_cons, hfalse]
        have hbc3 : blockedCount cur (c :: cs) = blockedCount cur cs := by
          simp [blockedCount, List.filter_cons, hb]
        have hih := ih (cur ++ [c]) hcs
        rw [hbc2] at hih
        rw [hbc3]
        simp only [List.length_append, List.length_cons, List.length_nil] at hih ⊢
        omega

theorem genericItems_distinct :
    genericItems.Pairwise (fun a b => pyLower a.tag ≠ pyLower b.tag) := by
  decide

theorem fallback_hashtags_length (text : String) (pf : Platform)
    (tops : List TopHashtag) :
    (fallback_hashtags text pf tops).length = numHashtags pf := by
  have h1 : (keywordItems text (numHashtags pf)).length ≤ numHashtags pf := by
    simp only [keywordItems, List.length_map, List.enum_length]
    exact List.length_take_le _ _
  have h2 : (fillItems (keywordItems text (numHashtags pf)) (numHashtags pf)
      (provenItems tops)).length ≤ numHashtags pf :=
    fillItems_length_le _ _ _ h1
  have h3 := fillItems_length_ge (numHashtags pf) genericItems
    (fillItems (keywordItems text (numHashtags pf)) (numHashtags pf)
      (provenItems tops)) genericItems_distinct
  have h4 := blockedCount_le (fillItems (keywordItems text (numHashtags pf))
      (numHashtags pf) (provenItems tops)) genericItems genericItems_distinct
  have h5 : (fillItems (fillItems (keywordItems text (numHashtags pf))
      (numHashtags pf) (provenItems tops)) (numHashtags pf)
        genericItems).length ≤ numHashtags pf :=
    fillItems_length_le _ _ _ h2
  have h6 : genericItems.length = 15 := rfl
  have h7 : numHashtags pf ≤ 15 := by cases pf <;> decide
  simp only [fallback_hashtags, List.length_take]
  rw [h6] at h3
  omega

/-- Claim C8: the proposer returns exactly N items (N = 3 on Twitter, 12 on
Instagram) on every path: when the decoded oracle list has at least N items
it is boosted and truncated to N, and otherwise the fallback chain (content
keywords, then proven hashtags, then the 15-tag generic pool, each skipping
case-insensitive duplicates) always reaches exactly N, because the pool
holds 15 distinct tags and each already-present item can block at most one
of them. -/
theorem c8_propose_exact_count (text : String) (pf : Platform)
    (tops : List TopHashtag) (oracleReply : Option (List HashtagItem)) :
    (generate_hashtags_with_learning text pf tops oracleReply).length =
      numHashtags pf := by
  cases oracleReply with
  | none => exact fallback_hashtags_length text pf tops
  | some hs =>
    simp only [generate_hashtags_with_learning]
    by_cases hlen : hs.length < numHashtags pf
    · rw [if_pos hlen]
      exact fallback_hashtags_length text pf tops
    · rw [if_neg hlen]
      rw [List.length_take, List.length_map]
      omega
